import Mathlib

/-!
Verification development for the TSP (Trendy Stocks Predictor) backend.

The JavaScript backend pipeline is shallowly embedded in Lean:
JS finite numbers are modelled as `ℚ`; a JS number that may be non-finite
(`NaN`, `±Infinity`) or absent is modelled as `Option ℚ` with `none` for the
non-finite/absent case (the code only ever distinguishes finite from
non-finite via `Number.isFinite`).  Timestamps are `ℤ` milliseconds.
Network effects are made explicit: every function that reads from the network
takes the (already transport-decoded) response data as a parameter, and a
failed or timed-out request is the `none` response.  The `vader-sentiment`
lexicon scorer is an external library and is modelled as an abstract scoring
function parameter `String → Option ℚ` (with `none` for a non-finite score,
which the code coerces to `0`).
-/

/-! ## JS string helpers

Models of the string operations used by the backend:
`String.prototype.trim`, `toLowerCase`, `toUpperCase`, `slice(0, n)`,
the regex replacements `/<[^>]*>/g` and `/\s+/g`, and first-occurrence
`String.prototype.replace` with a literal pattern. -/

/-- Whitespace test mirroring the JS `\s` class for the characters the
backend actually meets (space, tab, newline, carriage return, form feed,
vertical tab). -/
def jsIsWs (c : Char) : Bool :=
  c = ' ' || c = '\t' || c = '\n' || c = '\r' || c = '\x0b' || c = '\x0c'

/-- Skip characters up to and including the first `>`; `none` when there is
no `>` (the regex `<[^>]*>` then has no match starting at the `<`). -/
def dropThroughGt : List Char → Option (List Char)
  | [] => none
  | c :: rest => if c = '>' then some rest else dropThroughGt rest

/-- Worker for the regex `<[^>]*>` replacement, structurally recursive on a
fuel argument so that the kernel can evaluate it; every step consumes at
least one character, so a fuel of the list length never runs out. -/
def stripTagsFuel (repl : List Char) : ℕ → List Char → List Char
  | 0, l => l
  | _ + 1, [] => []
  | fuel + 1, c :: rest =>
    if c = '<' then
      match dropThroughGt rest with
      | some r => repl ++ stripTagsFuel repl fuel r
      | none => c :: stripTagsFuel repl fuel rest
    else c :: stripTagsFuel repl fuel rest

/-- Global replacement of the regex `<[^>]*>` by the replacement `repl`
(the backend uses `''` in the news fetcher and `' '` in the sentiment
service). -/
def stripTagsWith (repl : List Char) (l : List Char) : List Char :=
  stripTagsFuel repl l.length l

/-- Worker for the `/\s+/g` replacement, fuelled like `stripTagsFuel`. -/
def collapseWsFuel : ℕ → List Char → List Char
  | 0, l => l
  | _ + 1, [] => []
  | fuel + 1, c :: rest =>
    if jsIsWs c then ' ' :: collapseWsFuel fuel (rest.dropWhile jsIsWs)
    else c :: collapseWsFuel fuel rest

/-- Replacement of each maximal whitespace run by one space: the regex
replacement `replace(/\s+/g, ' ')`. -/
def collapseWs (l : List Char) : List Char := collapseWsFuel l.length l

/-- Model of `String.prototype.trim` on character lists. -/
def trimWs (l : List Char) : List Char :=
  ((l.dropWhile jsIsWs).reverse.dropWhile jsIsWs).reverse

/-- Model of `String.prototype.trim`. -/
def jsTrim (s : String) : String := ⟨trimWs s.data⟩

/-- Model of `String.prototype.toLowerCase` (ASCII part). -/
def jsToLower (s : String) : String := ⟨s.data.map Char.toLower⟩

/-- Model of `String.prototype.toUpperCase` (ASCII part). -/
def jsToUpper (s : String) : String := ⟨s.data.map Char.toUpper⟩

/-- Model of `String.prototype.slice(0, n)`. -/
def jsTake (s : String) (n : ℕ) : String := ⟨s.data.take n⟩

/-- Drop the first occurrence of `pat` from `l`: JS
`String.prototype.replace(pat, '')` with a literal, non-empty pattern. -/
def dropFirstOcc (pat : List Char) : List Char → List Char
  | [] => []
  | c :: rest =>
    if pat.isPrefixOf (c :: rest) then (c :: rest).drop pat.length
    else c :: dropFirstOcc pat rest

/-- Model of `Math.round`: round half toward positive infinity. -/
def jsRound (q : ℚ) : ℤ := ⌊q + 1/2⌋

/-- Round to two decimal places: model of `Number(x.toFixed(2))` for the
finite quantities the engine produces. -/
def round2 (q : ℚ) : ℚ := (jsRound (q * 100) : ℚ) / 100

/-- Decimal rendering of a non-negative rational with two fractional digits:
model of `x.toFixed(2)` as used on `Math.abs(compound)`. -/
def toFixed2 (q : ℚ) : String :=
  let n := (jsRound (q * 100)).toNat
  toString (n / 100) ++ "." ++
    (if n % 100 < 10 then "0" ++ toString (n % 100) else toString (n % 100))

/-- Model of `Math.max` on two finite numbers (kept as an `if` so that the
kernel can evaluate it on literals). -/
def jsMax (a b : ℚ) : ℚ := if a ≤ b then b else a

/-- Model of `Math.min` on two finite numbers. -/
def jsMin (a b : ℚ) : ℚ := if a ≤ b then a else b

/-- Model of `Math.abs` on a finite number. -/
def jsAbs (q : ℚ) : ℚ := if q < 0 then -q else q

/-- Clamp to a closed interval: the engine's `clamp(v, lo, hi)`
`= Math.min(hi, Math.max(lo, v))`. -/
def clampQ (v lo hi : ℚ) : ℚ := jsMin hi (jsMax lo v)

/-- Clamp a possibly non-finite number into `[-1, 1]`: the engine's
`clampUnit(n) = Math.max(-1, Math.min(1, Number.isFinite(n) ? n : 0))`. -/
def clampUnit (n : Option ℚ) : ℚ := jsMax (-1) (jsMin 1 (n.getD 0))

/-! ## Cache store, local in-process backend (`backend/src/modules/cache.js`)

The module keeps a `Map` `memStore` used whenever the Redis connection is
not ready (`useRedis` false).  The local backend is modelled as an
association list from keys to `(value, expiresAt)` pairs together with an
explicit clock `now : ℤ` (the value of `Date.now()` at the call).  The Redis
backend is an external process and is not modelled; the claims below are
about the local backend. -/

/-- One `memStore` entry: stored value and its `expiresAt` timestamp. -/
structure MemEntry (α : Type) where
  value : α
  expiresAt : ℤ
deriving DecidableEq, Repr

/-- Association-list lookup modelling `Map.prototype.get`. -/
def memLookup {α : Type} (st : List (String × MemEntry α)) (k : String) :
    Option (MemEntry α) :=
  match st with
  | [] => none
  | (k', e) :: rest => if k' = k then some e else memLookup rest k

/-- Association-list update modelling `Map.prototype.set`. -/
def memInsert {α : Type} (st : List (String × MemEntry α)) (k : String)
    (e : MemEntry α) : List (String × MemEntry α) :=
  match st with
  | [] => [(k, e)]
  | (k', e') :: rest =>
    if k' = k then (k, e) :: rest else (k', e') :: memInsert rest k e

/-- Association-list removal modelling `Map.prototype.delete`. -/
def memErase {α : Type} (st : List (String × MemEntry α)) (k : String) :
    List (String × MemEntry α) :=
  match st with
  | [] => []
  | (k', e') :: rest =>
    if k' = k then rest else (k', e') :: memErase rest k

/-- Local branch of `setCached(key, value, ttlMs)`:
`expiresAt = Date.now() + (ttlMs || 0)` (`none` models an absent `ttlMs`;
`ttlMs || 0` sends both `none` and `some 0` to `0`). -/
def setCachedLocal {α : Type} (st : List (String × MemEntry α)) (key : String)
    (value : α) (ttlMs : Option ℤ) (now : ℤ) : List (String × MemEntry α) :=
  let expiresAt := now + (ttlMs.getD 0)
  memInsert st key ⟨value, expiresAt⟩

/-- Local branch of `getCached(key)`: a missing entry is a miss; an entry
with truthy `expiresAt` (`expiresAt ≠ 0`) and `Date.now() > expiresAt` is
lazily deleted and is a miss; otherwise the value is returned.  The result
is the returned value (`none` models the JS `null` miss) paired with the
store after the lazy eviction. -/
def getCachedLocal {α : Type} (st : List (String × MemEntry α)) (key : String)
    (now : ℤ) : Option α × List (String × MemEntry α) :=
  match memLookup st key with
  | none => (none, st)
  | some e =>
    if e.expiresAt ≠ 0 ∧ now > e.expiresAt then (none, memErase st key)
    else (some e.value, st)

/-! ## News aggregator (`backend/src/modules/newsFetcher.js`, current revision)

`getNewsForSymbol` tries NewsAPI and then four RSS feeds in order; each
source maps its raw items through `normalizeItem`, filters on non-empty
title and url and `isFresh`, deduplicates by normalized title and sorts by
newest.  The per-source transport decoding (XML parsing, field picking) is
external input and is modelled by giving each source its decoded raw-article
list; the Economic Times source additionally filters on a url pattern,
modelled by a per-source extra predicate. -/

/-- Raw article as decoded from a source, before `normalizeItem`:
`publishedAt` is the parsed timestamp in ms (`none` when `toISO` failed,
i.e. the date was unparsable). -/
structure RawArticle where
  title : String
  summary : String
  url : String
  publishedAt : Option ℤ
deriving DecidableEq, Repr

/-- Article after `normalizeItem`. -/
structure Article where
  title : String
  summary : String
  url : String
  publishedAt : Option ℤ
deriving DecidableEq, Repr

/-- The 48-hour freshness horizon `HORIZON_MS = 48 * 3600 * 1000`. -/
def HORIZON_MS : ℤ := 48 * 3600 * 1000

/-- Model of `isFresh(iso)`: a parsable timestamp within the horizon and not
in the future. -/
def isFresh (now : ℤ) (publishedAt : Option ℤ) : Bool :=
  match publishedAt with
  | none => false
  | some t => decide (now - t ≤ HORIZON_MS) && decide (t ≤ now)

/-- The news fetcher's `stripTags`:
`String(html).replace(/<[^>]*>/g, '').replace(/\s+/g, ' ').trim()`. -/
def newsStripTags (s : String) : String :=
  ⟨trimWs (collapseWs (stripTagsWith [] s.data))⟩

/-- Model of `normalizeItem({title, summary, url, publishedAt})`. -/
def normalizeItem (r : RawArticle) : Article :=
  { title := jsTrim r.title
    summary := jsTake (newsStripTags r.summary) 400
    url := r.url
    publishedAt := r.publishedAt }

/-- Normalized-title identity used by `dedupeArticles`:
`(it.title || '').trim().toLowerCase()`. -/
def normTitleKey (a : Article) : String := jsToLower (jsTrim a.title)

/-- Worker for `dedupeArticles`: keep the first article per non-empty
normalized title, dropping articles whose key is empty or already seen. -/
def dedupeGo {α : Type} (key : α → String) (seen : List String) :
    List α → List α
  | [] => []
  | a :: rest =>
    if key a = "" ∨ key a ∈ seen then dedupeGo key seen rest
    else a :: dedupeGo key (key a :: seen) rest

/-- Model of `dedupeArticles(items)`. -/
def dedupeArticles (items : List Article) : List Article :=
  dedupeGo normTitleKey [] items

/-- Model of `sortByNewest(items)`: sort by `publishedAt` descending (only
the fact that the output is a permutation of the input matters below; the
JS comparator on an invalid date is not otherwise modelled). -/
def sortByNewest (items : List Article) : List Article :=
  List.insertionSort
    (fun a b => (b.publishedAt.getD 0) ≤ (a.publishedAt.getD 0)) items

/-- One news source: its decoded raw items plus its extra post-filter
(`fun _ => true` for every source except Economic Times, which also
requires the url to match `/economictimes\.com/i`, modelled abstractly). -/
structure NewsSource where
  raws : List RawArticle
  extraOk : Article → Bool

/-- Per-source pipeline shared by all five sources: map `normalizeItem`,
filter on non-empty title and url, freshness and the source's extra
predicate, deduplicate, sort. -/
def processSource (now : ℤ) (src : NewsSource) : List Article :=
  sortByNewest (dedupeArticles
    ((src.raws.map normalizeItem).filter
      (fun a => a.title ≠ "" && a.url ≠ "" && isFresh now a.publishedAt
        && src.extraOk a)))

/-- First source yielding at least one post-filter article wins; all
failing or empty gives `[]` (a failing source is modelled by an empty
raw-item list). -/
def firstNonempty : List (List Article) → List Article
  | [] => []
  | l :: rest => if l = [] then firstNonempty rest else l

/-- Model of `getNewsForSymbol` over the sources' decoded responses, in
their priority order (NewsAPI, Google News, Yahoo Finance, Economic Times,
Bing News). -/
def getNewsForSymbol (now : ℤ) (sources : List NewsSource) : List Article :=
  firstNonempty (sources.map (processSource now))

/-! ## Sentiment service (`backend/src/modules/sentimentService.js`,
current revision)

`scoreArticle` builds a weighted text from title and summary and feeds it
to the `vader-sentiment` lexicon analyzer; `aggregateSentiment` averages
the clamped scores over articles deduplicated by normalized title.  The
lexicon analyzer is external and is passed as `scorer : String → Option ℚ`
(`none` for a non-finite compound, coerced to `0` by `clampUnit`). -/

/-- Three-valued sentiment label. -/
inductive SentLabel | positive | negative | neutral
deriving DecidableEq, Repr

/-- Aggregated sentiment: `{compound, label, count}`. -/
structure VaderResult where
  compound : ℚ
  label : SentLabel
  count : ℕ
deriving DecidableEq, Repr

/-- The sentiment service's `stripTags` (tags replaced by a space) composed
with `squash` (whitespace collapse and trim), as applied to titles and
summaries. -/
def sentClean (s : String) : String :=
  ⟨trimWs (collapseWs (stripTagsWith [' '] s.data))⟩

/-- The `TITLE_WEIGHT = 0.7` tunable. -/
def TITLE_WEIGHT : ℚ := 7/10

/-- Number of title repetitions:
`Math.max(1, Math.round(TITLE_WEIGHT * 3))`. -/
def titleRepeats : ℕ := max 1 (jsRound (TITLE_WEIGHT * 3)).toNat

/-- Model of `Array.from({length: n}, () => title).join('. ')`. -/
def repeatTitle : ℕ → String → String
  | 0, _ => ""
  | 1, t => t
  | n + 2, t => t ++ ". " ++ repeatTitle (n + 1) t

/-- Model of `buildArticleText(article)`. -/
def buildArticleText (title summary : String) : String :=
  let t := sentClean title
  let s := sentClean summary
  if t = "" ∧ s = "" then ""
  else if s = "" then t
  else if t = "" then s
  else repeatTitle titleRepeats t ++ ". " ++ s

/-- Model of `scoreArticle(article)` (the returned `compound` field): the
empty text scores `0`, otherwise the lexicon compound clamped to the unit
interval. -/
def scoreArticle (scorer : String → Option ℚ) (title summary : String) : ℚ :=
  let text := buildArticleText title summary
  if text = "" then 0 else clampUnit (scorer text)

/-- Dedup key used by `aggregateSentiment`:
`squash(stripTags(a?.title ?? '')).toLowerCase()`. -/
def sentTitleKey (title : String) : String := jsToLower (sentClean title)

/-- Dedup loop of `aggregateSentiment`: articles with an empty key are all
kept, otherwise the first article per key wins. -/
def sentDedupGo (seen : List String) : List Article → List Article
  | [] => []
  | a :: rest =>
    if sentTitleKey a.title = "" then a :: sentDedupGo seen rest
    else if sentTitleKey a.title ∈ seen then sentDedupGo seen rest
    else a :: sentDedupGo (sentTitleKey a.title :: seen) rest

/-- The `POS_THRESHOLD = 0.05` and `NEG_THRESHOLD = -0.05` tunables. -/
def POS_THRESHOLD : ℚ := 1/20

def NEG_THRESHOLD : ℚ := -(1/20)

/-- Model of `aggregateSentiment(articles)`. -/
def aggregateSentiment (scorer : String → Option ℚ) (articles : List Article) :
    VaderResult :=
  if articles = [] then ⟨0, .neutral, 0⟩
  else
    let deduped := sentDedupGo [] articles
    let scores := deduped.map
      (fun a => clampUnit (some (scoreArticle scorer a.title a.summary)))
    if scores = [] then ⟨0, .neutral, 0⟩
    else
      let compound := clampUnit (some (scores.sum / scores.length))
      let label : SentLabel :=
        if POS_THRESHOLD ≤ compound then .positive
        else if compound ≤ NEG_THRESHOLD then .negative
        else .neutral
      ⟨compound, label, deduped.length⟩

/-! ## Agno LLM client (`backend/src/modules/agnoClient.js`)

`getAgnoPicks` posts the batch to the external classifier with a timeout,
retrying failures up to `RETRIES` times with backoff, and keeps rolling
metrics.  The network is modelled by an explicit list of per-attempt
outcomes; sleeping, the request body (`normalizeNewsMap`) and the jittered
backoff delays do not affect any returned value and are not modelled. -/

/-- Classifier row as consumed by the recommendation engine. -/
structure AgnoRow where
  symbol : String
  error : Bool
  sentiment_score : Option ℚ
  sentiment_label : String
  reason : String
deriving DecidableEq, Repr

/-- Decoded JSON body of a successful `/picks` response. -/
inductive AgnoJson
  | arr (rows : List AgnoRow)
  | withData (rows : List AgnoRow)
  | other
deriving DecidableEq, Repr

/-- Model of `normalizeAgnoResponse(json)`. -/
def normalizeAgnoResponse : AgnoJson → List AgnoRow
  | .arr rows => rows
  | .withData rows => rows
  | .other => []

/-- The `lastStatus` values of the metrics object. -/
inductive AgnoStatus | idle | ok | timeout | error | disabled
deriving DecidableEq, Repr

/-- The module-level `metrics` object. -/
structure AgnoMetrics where
  totalCalls : ℕ
  totalFailures : ℕ
  totalDuration : ℤ
  lastStatus : AgnoStatus
  lastError : String
  lastOkAt : ℤ
deriving DecidableEq, Repr

/-- The metrics object at process start. -/
def initialAgnoMetrics : AgnoMetrics := ⟨0, 0, 0, .idle, "", 0⟩

/-- Outcome of one fetch attempt against the classifier: a decoded 2xx
response (with its duration and completion time), a non-2xx status, an
abort by the timeout controller, or a transport/JSON error. -/
inductive AgnoOutcome
  | ok (json : AgnoJson) (dur : ℤ) (at_ : ℤ)
  | httpError (code : ℕ) (dur : ℤ)
  | timedOut (dur : ℤ)
  | netError (msg : String) (dur : ℤ)
deriving DecidableEq, Repr

/-- Whether an attempt outcome lands in the `catch` branch. -/
def AgnoOutcome.isFailure : AgnoOutcome → Bool
  | .ok _ _ _ => false
  | _ => true

/-- First-occurrence deduplication: `Array.from(new Set(xs))` (a JS `Set`
iterates in insertion order). -/
def setDedupGo (seen : List String) : List String → List String
  | [] => []
  | s :: rest =>
    if s ∈ seen then setDedupGo seen rest
    else s :: setDedupGo (s :: seen) rest

/-- Entry point of `setDedupGo` with nothing seen yet. -/
def setDedup (l : List String) : List String := setDedupGo [] l

/-- Model of `normalizeSymbols(symbols)`: `none` models a non-array
argument; entries are the string coercions `String(s || '')`. -/
def normalizeSymbols (symbols : Option (List String)) : List String :=
  match symbols with
  | none => []
  | some l => setDedup ((l.map jsTrim).filter (fun s => s ≠ ""))

/-- Retry loop of `getAgnoPicks` over the attempt outcomes.  Each attempt
increments `totalCalls` and accumulates its duration; a success sets
`lastStatus = ok` and returns the normalized rows; a failure increments
`totalFailures`, records the status and error and retries while
`attempt < retries`, else returns `null` (`none`). -/
def runAgnoAttempts (timeoutMs : ℤ) (retries : ℕ) :
    ℕ → AgnoMetrics → List AgnoOutcome →
    Option (List AgnoRow) × AgnoMetrics
  | _, m, [] => (none, m)
  | attempt, m, o :: rest =>
    let m1 : AgnoMetrics := { m with totalCalls := m.totalCalls + 1 }
    match o with
    | .ok json dur t =>
      (some (normalizeAgnoResponse json),
        { m1 with totalDuration := m1.totalDuration + dur,
                  lastStatus := .ok, lastError := "", lastOkAt := t })
    | .httpError code dur =>
      let m2 : AgnoMetrics :=
        { m1 with totalDuration := m1.totalDuration + dur,
                  totalFailures := m1.totalFailures + 1,
                  lastStatus := .error,
                  lastError := "agno HTTP " ++ toString code }
      if attempt < retries then runAgnoAttempts timeoutMs retries (attempt + 1) m2 rest
      else (none, m2)
    | .timedOut dur =>
      let m2 : AgnoMetrics :=
        { m1 with totalDuration := m1.totalDuration + dur,
                  totalFailures := m1.totalFailures + 1,
                  lastStatus := .timeout,
                  lastError := "Timeout after " ++ toString timeoutMs ++ "ms" }
      if attempt < retries then runAgnoAttempts timeoutMs retries (attempt + 1) m2 rest
      else (none, m2)
    | .netError msg dur =>
      let m2 : AgnoMetrics :=
        { m1 with totalDuration := m1.totalDuration + dur,
                  totalFailures := m1.totalFailures + 1,
                  lastStatus := .error,
                  lastError := msg }
      if attempt < retries then runAgnoAttempts timeoutMs retries (attempt + 1) m2 rest
      else (none, m2)

/-- Model of `getAgnoPicks(symbols, newsMap)`: result value (`none` models
the JS `null`) paired with the metrics after the call.  `enabled`, the
timeout and the retry count are the `AGNO_ENABLED` / `AGNO_TIMEOUT_MS` /
`AGNO_RETRIES` configuration. -/
def getAgnoPicks (enabled : Bool) (timeoutMs : ℤ) (retries : ℕ)
    (symbols : Option (List String)) (outcomes : List AgnoOutcome)
    (m : AgnoMetrics) : Option (List AgnoRow) × AgnoMetrics :=
  if enabled = false then (none, { m with lastStatus := .disabled })
  else
    let cleanSymbols := normalizeSymbols symbols
    if cleanSymbols = [] then (some [], m)
    else runAgnoAttempts timeoutMs retries 0 m outcomes

/-! ## Market feed (`backend/src/modules/marketFeed.js`)

`getSnapshot` resolves the symbol universe once, then tries Yahoo intraday,
NSE quotes, Twelve Data and finally synthetic rows, returning the first
non-empty result.  Each source's transport and parsing is external input:
a source is given the per-symbol parsed values (`none` for a symbol whose
fetch failed, timed out, exhausted its two attempts or parsed to nothing).
The bounded worker pool only affects scheduling; rows are modelled in
universe order. -/

/-- A quote row `{symbol, open, ltp, volume, pct_change}` as produced by the
feed.  Numeric fields stay `Option ℚ` (a JS number that might be
non-finite); the producers below only push rows after their finiteness
checks. -/
structure Quote where
  symbol : String
  open_ : Option ℚ
  ltp : Option ℚ
  volume : Option ℚ
  pct_change : Option ℚ
deriving DecidableEq, Repr

/-- Result of `parseYahooIntraday` for one symbol.  The parser itself
always coerces a non-finite cumulative volume to `0`
(`Number.isFinite(totalVolume) ? totalVolume : 0`), so its volume output is
a plain `ℚ`. -/
structure YahooParsed where
  open_ : Option ℚ
  ltp : Option ℚ
  volume : ℚ
  pct_change : Option ℚ
deriving DecidableEq, Repr

/-- Values read out of one NSE `priceInfo` response for a symbol. -/
structure NseParsed where
  open_ : Option ℚ
  ltp : Option ℚ
  volume : Option ℚ
  pct_change : Option ℚ
deriving DecidableEq, Repr

/-- One entry of a Twelve Data quote response.  `symbolRaw = none` models
an entry with neither `symbol` nor `name`; `hasCode` a payload carrying an
error `code`. -/
structure TdEntry where
  symbolRaw : Option String
  hasCode : Bool
  open_ : Option ℚ
  ltp : Option ℚ
  volume : Option ℚ
  pct_change : Option ℚ
deriving DecidableEq, Repr

/-- Model of `fetchFromYahoo(symbols)`: keep a row only when
`[open, ltp, pct_change].every(Number.isFinite)`. -/
def fetchFromYahoo (symbols : List String)
    (resp : String → Option YahooParsed) : List Quote :=
  symbols.filterMap (fun s =>
    match resp s with
    | none => none
    | some p =>
      if p.open_.isSome && p.ltp.isSome && p.pct_change.isSome then
        some ⟨s, p.open_, p.ltp, some p.volume, p.pct_change⟩
      else none)

/-- Model of `fetchFromNSE(symbols)`: keep a row only when
`[open, ltp, pct_change].every(Number.isFinite)`, coercing a non-finite
volume to `0`. -/
def fetchFromNSE (symbols : List String)
    (resp : String → Option NseParsed) : List Quote :=
  symbols.filterMap (fun s =>
    match resp s with
    | none => none
    | some p =>
      if p.open_.isSome && p.ltp.isSome && p.pct_change.isSome then
        some ⟨s, p.open_, p.ltp, some (p.volume.getD 0), p.pct_change⟩
      else none)

/-- Symbol cleanup in the Twelve Data parser:
`String(...).replace(':NS', '').replace('NSE:', '').toUpperCase()`. -/
def tdCleanSymbol (s : String) : String :=
  jsToUpper ⟨dropFirstOcc "NSE:".data (dropFirstOcc ":NS".data s.data)⟩

/-- Model of `fetchFromTwelveData(symbols)`: `none` when `TWELVEDATA_KEY`
is unset; otherwise entries with an error code or no symbol are skipped and
a row requires all four numbers finite.  The two symbol-format attempts
are modelled as one decoded entry list. -/
def fetchFromTwelveData (entries : Option (List TdEntry)) :
    Option (List Quote) :=
  match entries with
  | none => none
  | some l =>
    some (l.filterMap (fun e =>
      if e.hasCode then none
      else
        match e.symbolRaw with
        | none => none
        | some sraw =>
          if e.open_.isSome && e.ltp.isSome && e.volume.isSome
              && e.pct_change.isSome then
            some ⟨tdCleanSymbol sraw, e.open_, e.ltp, e.volume, e.pct_change⟩
          else none))

/-- Model of `genRow(symbol)` over the three `Math.random` draws
`(open, pct, volume)` of the mock generator. -/
def genRow (draws : String → ℚ × ℚ × ℚ) (s : String) : Quote :=
  let (o, p, v) := draws s
  let openR : ℚ := (jsRound (o * 100) : ℚ) / 100
  let pctR : ℚ := (jsRound (p * 100) : ℚ) / 100
  let ltpR : ℚ := (jsRound (openR * (1 + pctR / 100) * 100) : ℚ) / 100
  ⟨s, some openR, some ltpR, some ⌊v⌋, some pctR⟩

/-- Symbol cleanup in `fetchNifty500Symbols`:
`String(r?.symbol || '').trim().toUpperCase()`. -/
def niftyCleanSymbol (s : String) : String := jsToUpper (jsTrim s)

/-- Model of `fetchNifty500Symbols()` over the decoded constituents rows:
clean, drop falsy, first-occurrence dedup, cap to `UNIVERSE_CAP`. -/
def fetchNifty500Symbols (cap : ℕ) (rows : List String) : List String :=
  (setDedup ((rows.map niftyCleanSymbol).filter (fun s => s ≠ ""))).take cap

/-- The hardcoded default universe. -/
def defaultUniverse : List String :=
  ["RELIANCE", "TCS", "INFY", "HDFCBANK", "ICICIBANK", "HINDUNILVR", "SBIN",
   "BHARTIARTL", "ITC", "LTIM", "MARUTI", "ASIANPAINT", "AXISBANK",
   "KOTAKBANK", "ULTRACEMCO"]

/-- Fallback chain of `getUniverseSymbols` after the live query: the local
`nse_universe.json` file (uppercased and capped, no dedup and no blank
filter) and then the hardcoded default list. -/
def universeFileOrDefault (cap : ℕ) (file : Option (List String)) :
    List String :=
  match file with
  | some arr =>
    if arr ≠ [] then (arr.map jsToUpper).take cap else defaultUniverse.take cap
  | none => defaultUniverse.take cap

/-- Model of `getUniverseSymbols()` on a cold cache: `live = none` models a
thrown or failed NIFTY 500 fetch, `file = none` an unreadable or invalid
local file. -/
def getUniverseSymbols (cap : ℕ) (live : Option (List String))
    (file : Option (List String)) : List String :=
  match live with
  | some rows =>
    let syms := fetchNifty500Symbols cap rows
    if syms ≠ [] then syms else universeFileOrDefault cap file
  | none => universeFileOrDefault cap file

/-- Dedup-by-symbol loop in `getSnapshot`'s Yahoo branch: skip rows with a
falsy symbol or an already seen symbol, first occurrence wins. -/
def dedupBySymbol (rows : List Quote) : List Quote :=
  dedupeGo Quote.symbol [] rows

/-- Model of `getSnapshot()` given the resolved universe and each source's
decoded responses: first source with at least one row wins outright, and
only the Yahoo branch deduplicates by symbol; the mock fallback is never
empty. -/
def getSnapshot (univ : List String)
    (yresp : String → Option YahooParsed)
    (nresp : String → Option NseParsed)
    (tdEntries : Option (List TdEntry))
    (draws : String → ℚ × ℚ × ℚ) : List Quote :=
  let y := fetchFromYahoo univ yresp
  if y ≠ [] then dedupBySymbol y
  else
    let nse := fetchFromNSE univ nresp
    if nse ≠ [] then nse
    else
      match fetchFromTwelveData tdEntries with
      | some td => if td ≠ [] then td else univ.map (genRow draws)
      | none => univ.map (genRow draws)

/-- All four numeric fields of a quote are finite. -/
def quoteFinite (q : Quote) : Prop :=
  q.open_.isSome ∧ q.ltp.isSome ∧ q.volume.isSome ∧ q.pct_change.isSome

/-! ## Primary numeric filter (`backend/src/modules/filters.js`) -/

/-- Model of `primaryFilter(row)`: all three read fields finite, with
`pct_change` in `[1, 3]`, `open > 50` and `volume ≥ 100000`. -/
def primaryFilter (q : Quote) : Bool :=
  match q.pct_change, q.open_, q.volume with
  | some pct, some op, some vol =>
    decide (1 ≤ pct) && decide (pct ≤ 3) && decide (50 < op)
      && decide (100000 ≤ vol)
  | _, _, _ => false

/-! ## Recommendation engine (`backend/src/modules/recommendationEngine.js`,
current revision)

Tier-1 VADER pass, LLM-escalation heuristics, quick intraday predictor and
the merge of classifier rows over the Tier-1 baseline.  `Math.log10`
(irrational in general) is passed as an abstract function `lg`; it only
enters the escalation priority order. -/

/-- Recommendation labels `BULLISH` / `WATCH` / `SKIP`. -/
inductive RecLabel | BULLISH | WATCH | SKIP
deriving DecidableEq, Repr

/-- Which tier produced the sentiment: `'vader'` or `'agno'`. -/
inductive SentSource | vader | agno
deriving DecidableEq, Repr

/-- Trend of the quick prediction. -/
inductive Trend | bullish | bearish | sideways
deriving DecidableEq, Repr

/-- Risk bucket of the quick prediction. -/
inductive RiskLevel | low | medium | high
deriving DecidableEq, Repr

/-- Engine tunables with their environment defaults. -/
structure EngineCfg where
  neutralBand : ℚ
  conflictBand : ℚ
  bigMovePct : ℚ
  highVolume : ℚ
  requireNews : Bool
  agnoMaxPerBatch : ℕ
  predLimit : ℚ
  sentGain : ℚ
  momGain : ℚ
  predVol1 : ℚ
  predVol2 : ℚ
  predVolGain1 : ℚ
  predVolGain2 : ℚ
deriving DecidableEq, Repr

/-- The defaults:
`VADER_NEUTRAL_BAND 0.20`, `PRICE_CONFLICT_BAND 1.00`, `BIG_MOVE_PCT 3.00`,
`HIGH_VOLUME_THRESHOLD 1e6`, `REQUIRE_NEWS_FOR_LLM false`,
`AGNO_MAX_PER_BATCH 100`, `PRED_LIMIT_ABS_PCT 3.0`,
`PRED_SENTIMENT_GAIN 2.0`, `PRED_MOMENTUM_GAIN 0.25`, `PRED_VOL_1 1e6`,
`PRED_VOL_2 3e6`, `PRED_VOL_GAIN_1 0.3`, `PRED_VOL_GAIN_2 0.6`. -/
def defaultEngineCfg : EngineCfg :=
  { neutralBand := 1/5
    conflictBand := 1
    bigMovePct := 3
    highVolume := 1000000
    requireNews := false
    agnoMaxPerBatch := 100
    predLimit := 3
    sentGain := 2
    momGain := 1/4
    predVol1 := 1000000
    predVol2 := 3000000
    predVolGain1 := 3/10
    predVolGain2 := 3/5 }

/-- Model of `vaderToRec(label)`. -/
def vaderToRec : SentLabel → RecLabel
  | .positive => .BULLISH
  | .negative => .SKIP
  | .neutral => .WATCH

/-- Model of `normRec(label)` on a classifier label string. -/
def normRec (label : String) : RecLabel :=
  if jsToUpper label = "BULLISH" then .BULLISH
  else if jsToUpper label = "SKIP" then .SKIP
  else .WATCH

/-- Model of `mapAgnoLabelToVader(agnoLabel)` applied to the already
normalized final label. -/
def mapAgnoLabelToVader : RecLabel → SentLabel
  | .BULLISH => .positive
  | .SKIP => .negative
  | .WATCH => .neutral

/-- Model of `generateVaderReason(sentiment, articleCount)`. -/
def generateVaderReason (v : VaderResult) (articleCount : ℕ) : String :=
  if articleCount = 0 then "No recent news available"
  else
    let score := toFixed2 (jsAbs v.compound)
    match v.label with
    | .positive =>
      "Positive sentiment (" ++ score ++ ") across " ++ toString articleCount
        ++ " articles"
    | .negative =>
      "Negative sentiment (" ++ score ++ ") across " ++ toString articleCount
        ++ " articles"
    | .neutral =>
      "Neutral sentiment across " ++ toString articleCount ++ " articles"

/-- Model of `shouldSendToLLM(row, vader, articleCount)`: reads
`Number(row?.pct_change ?? 0)` and `Number(row?.volume ?? 0)` (a missing or
non-finite field reads as `0`). -/
def shouldSendToLLM (cfg : EngineCfg) (row : Quote) (vader : VaderResult)
    (articleCount : ℕ) : Bool :=
  let pct := row.pct_change.getD 0
  let vol := row.volume.getD 0
  let absPct := jsAbs pct
  let compound := vader.compound
  if cfg.requireNews = true ∧ articleCount = 0 then false
  else if cfg.bigMovePct ≤ absPct ∨ cfg.highVolume ≤ vol then true
  else if jsAbs compound < cfg.neutralBand then true
  else if vader.label = .positive ∧ pct ≤ -cfg.conflictBand then true
  else if vader.label = .negative ∧ cfg.conflictBand ≤ pct then true
  else false

/-- Model of `priorityScore(row, articleCount)` with `Math.log10` passed as
the abstract `lg`. -/
def priorityScore (lg : ℚ → ℚ) (row : Quote) (articleCount : ℕ) : ℚ :=
  let pct := jsAbs (row.pct_change.getD 0)
  let vol := jsMax 0 (row.volume.getD 0)
  pct * 10 + (if 0 < articleCount then 20 else 0)
    + (if 0 < vol then lg (vol + 1) else 0)

/-- Output of `predictTodayChangePct` before the two-decimal rounding done
by the caller. -/
structure PredictionCore where
  pred : ℚ
  confidence : ℚ
  trend : Trend
  risk_level : RiskLevel
  volatility : ℚ
deriving DecidableEq, Repr

/-- Model of `predictTodayChangePct(row, sentimentScore)`. -/
def predictTodayChangePct (cfg : EngineCfg) (row : Quote)
    (sentimentScore : ℚ) : PredictionCore :=
  let pct := row.pct_change.getD 0
  let vol := row.volume.getD 0
  let s := clampUnit (some sentimentScore)
  let volBoost : ℚ :=
    if cfg.predVol2 ≤ vol then cfg.predVolGain2
    else if cfg.predVol1 ≤ vol then cfg.predVolGain1
    else 0
  let momentum := clampQ pct (-3) 3 * cfg.momGain
  let sentimentBoost := s * cfg.sentGain
  let pred := clampQ (sentimentBoost + volBoost + momentum)
    (-cfg.predLimit) cfg.predLimit
  let confSent := jsAbs s
  let confMom := clampQ (jsAbs pct / cfg.predLimit) 0 1
  let confVol : ℚ := if 0 < volBoost then volBoost / cfg.predVolGain2 else 0
  let confidence := clampQ
    (1/4 + (1/2) * confSent + (3/20) * confMom + (1/10) * confVol)
    (1/5) (19/20)
  let trend : Trend :=
    if 3/20 < pred then .bullish
    else if pred < -(3/20) then .bearish
    else .sideways
  let risk_level : RiskLevel :=
    if 3/4 ≤ confidence then .low
    else if 1/2 ≤ confidence then .medium
    else .high
  let volatility := clampQ (jsAbs pred / cfg.predLimit) 0 1
  ⟨pred, confidence, trend, risk_level, volatility⟩

/-- Sentiment object attached to an enriched row. -/
structure SentimentOut where
  compound : ℚ
  label : SentLabel
  count : ℕ
  source : SentSource
deriving DecidableEq, Repr

/-- Prediction payload attached to an enriched row. -/
structure Prediction where
  predicted_change_pct : ℚ
  trend : Trend
  confidence : ℚ
  risk_level : RiskLevel
  volatility : ℚ
  price_targets : List ℤ
deriving DecidableEq, Repr

/-- One output row of `buildEnhancedRecommendations` (the spread of the
quote plus the sentiment, recommendation and prediction fields). -/
structure EnrichedRow where
  symbol : String
  open_ : Option ℚ
  ltp : Option ℚ
  volume : Option ℚ
  pct_change : Option ℚ
  sentiment : SentimentOut
  sentiment_score : ℚ
  sentiment_label : RecLabel
  reason : String
  recommendation : RecLabel
  enhanced_recommendation : RecLabel
  prediction : Prediction
deriving DecidableEq, Repr

/-- Intermediate per-candidate record of the engine's VADER pass. -/
structure BaseRow where
  row : Quote
  articles : List Article
  vader : VaderResult
  articleCount : ℕ
  rec_ : RecLabel
  needsLLM : Bool
  priority : ℚ
deriving Repr

/-- VADER pass of `buildEnhancedRecommendations` for one candidate. -/
def mkBaseRow (cfg : EngineCfg) (lg : ℚ → ℚ) (scorer : String → Option ℚ)
    (news : String → List Article) (row : Quote) : BaseRow :=
  let articles := news row.symbol
  let vader := aggregateSentiment scorer articles
  { row := row
    articles := articles
    vader := vader
    articleCount := articles.length
    rec_ := vaderToRec vader.label
    needsLLM := shouldSendToLLM cfg row vader articles.length
    priority := priorityScore lg row articles.length }

/-- The escalation subset: candidates flagged `needsLLM`, sorted by
priority descending and capped to `AGNO_MAX_PER_BATCH`; these are the
symbols of the one batched classifier call. -/
def llmSelection (cfg : EngineCfg) (lg : ℚ → ℚ) (scorer : String → Option ℚ)
    (news : String → List Article) (candidates : List Quote) : List String :=
  ((List.insertionSort (fun a b => b.priority ≤ a.priority)
      ((candidates.map (mkBaseRow cfg lg scorer news)).filter
        (fun b => b.needsLLM))).take cfg.agnoMaxPerBatch).map
    (fun b => b.row.symbol)

/-- The `agnoMap` lookup: rows with a falsy symbol are skipped and
`Map.prototype.set` lets the last row per symbol win. -/
def agnoLookup (agnoResults : Option (List AgnoRow)) (s : String) :
    Option AgnoRow :=
  match agnoResults with
  | none => none
  | some rows =>
    if s = "" then none else (rows.filter (fun r => r.symbol = s ∧ r.symbol ≠ "")).getLast?

/-- Merge step of `buildEnhancedRecommendations` for one candidate: a
classifier row without an error flag replaces the Tier-1 score, label and
reason; otherwise the VADER values stand.  Then the quick intraday
prediction is attached. -/
def mergeRow (cfg : EngineCfg) (agnoResults : Option (List AgnoRow))
    (b : BaseRow) : EnrichedRow :=
  let articleCount := b.articles.length
  let vaderCompound := clampUnit (some b.vader.compound)
  let agno := agnoLookup agnoResults b.row.symbol
  let merged : ℚ × RecLabel × String × SentSource :=
    match agno with
    | some a =>
      if a.error = false then
        (clampUnit a.sentiment_score, normRec a.sentiment_label,
          (if jsTrim a.reason ≠ "" then jsTrim a.reason else "AI summary"),
          .agno)
      else (vaderCompound, b.rec_, generateVaderReason b.vader articleCount,
        .vader)
    | none =>
      (vaderCompound, b.rec_, generateVaderReason b.vader articleCount,
        .vader)
  let finalScore := merged.1
  let finalLabel := merged.2.1
  let reason := merged.2.2.1
  let source := merged.2.2.2
  let p := predictTodayChangePct cfg b.row finalScore
  let ltpv := b.row.ltp.getD 0
  let targetPrice := jsRound (ltpv * (1 + p.pred / 100))
  { symbol := b.row.symbol
    open_ := b.row.open_
    ltp := b.row.ltp
    volume := b.row.volume
    pct_change := b.row.pct_change
    sentiment :=
      { compound := finalScore
        label := (match source with
          | .agno => mapAgnoLabelToVader finalLabel
          | .vader => b.vader.label)
        count := articleCount
        source := source }
    sentiment_score := finalScore
    sentiment_label := finalLabel
    reason := reason
    recommendation := finalLabel
    enhanced_recommendation := finalLabel
    prediction :=
      { predicted_change_pct := round2 p.pred
        trend := p.trend
        confidence := round2 p.confidence
        risk_level := p.risk_level
        volatility := round2 p.volatility
        price_targets := if targetPrice ≠ 0 then [targetPrice] else [] } }

/-- Model of `buildEnhancedRecommendations(candidates, newsMap)`.  The one
batched classifier call is `getAgnoPicks` on `llmSelection`; its returned
value is passed here as `agnoResults` (`none` models both the `null`
fallback return and a thrown error caught by the engine). -/
def buildEnhancedRecommendations (cfg : EngineCfg) (lg : ℚ → ℚ)
    (scorer : String → Option ℚ) (candidates : List Quote)
    (news : String → List Article) (agnoResults : Option (List AgnoRow)) :
    List EnrichedRow :=
  if candidates = [] then []
  else
    (candidates.map (mkBaseRow cfg lg scorer news)).map
      (mergeRow cfg agnoResults)

/-! ## Pick-set serving while the market is closed (`backend/src/index.js`,
route `GET /api/picks/today`, closed branch)

With the market closed the route serves, in order: the in-memory
`lastSessionPicks`, the persisted `last:session:picks` cache value, and a
rebuild from `getPreviousSessionSnapshot()`.  The rebuild filters with
`primaryFilter`, sorts by `pct_change` descending, keeps the top 50,
resolves news per symbol (cache first, fresh fetch if allowed off-hours),
enriches through `buildEnhancedRecommendations` and attaches the top
headline. -/

/-- A served pick row: enriched row plus the attached `topHeadline`. -/
structure PickRow extends EnrichedRow where
  topHeadline : Option String
deriving DecidableEq, Repr

/-- The in-memory / persisted `lastSessionPicks` value. -/
structure SessionPicks where
  sessionDate : String
  results : List PickRow
  asOf : String
deriving DecidableEq, Repr

/-- News resolution of the rebuild branch:
`articles = await getCached(key)`, refreshed when empty or missing and
`OFFHOURS_NEWS_FETCH` allows it, with `articles || []` as the stored map
value. -/
def offhoursNews (cached : String → Option (List Article))
    (fresh : String → List Article) (offhoursFetch : Bool) (s : String) :
    List Article :=
  match cached s with
  | some l => if l = [] ∧ offhoursFetch then fresh s else l
  | none => if offhoursFetch then fresh s else []

/-- Model of the `withHeadlines` map:
`topHeadline: newsMap[row.symbol]?.[0]?.title || null`. -/
def withHeadlines (news : String → List Article) (rows : List EnrichedRow) :
    List PickRow :=
  rows.map (fun r =>
    { toEnrichedRow := r
      topHeadline :=
        match (news r.symbol).head? with
        | none => none
        | some a => if a.title = "" then none else some a.title })

/-- Rebuild branch of the closed-market route, from the previous-session
snapshot to the served `results` array. -/
def rebuildClosed (cfg : EngineCfg) (lg : ℚ → ℚ)
    (scorer : String → Option ℚ) (prev : List Quote)
    (cached : String → Option (List Article)) (fresh : String → List Article)
    (offhoursFetch : Bool) (agnoResults : Option (List AgnoRow)) :
    List PickRow :=
  let candidates := List.insertionSort
    (fun a b => b.pct_change.getD 0 ≤ a.pct_change.getD 0)
    (prev.filter primaryFilter)
  let topCandidates := candidates.take 50
  let news := offhoursNews cached fresh offhoursFetch
  withHeadlines news
    (buildEnhancedRecommendations cfg lg scorer topCandidates news agnoResults)

/-- Closed-market dispatch of `GET /api/picks/today`: in-memory pick-set
first, then the persisted one, then the rebuild.  The returned value is the
`results` array of the response. -/
def picksTodayClosed (cfg : EngineCfg) (lg : ℚ → ℚ)
    (scorer : String → Option ℚ) (mem : SessionPicks)
    (persisted : Option SessionPicks) (prev : List Quote)
    (cached : String → Option (List Article)) (fresh : String → List Article)
    (offhoursFetch : Bool) (agnoResults : Option (List AgnoRow)) :
    List PickRow :=
  if mem.results ≠ [] then mem.results
  else
    match persisted with
    | some p =>
      if p.results ≠ [] then p.results
      else rebuildClosed cfg lg scorer prev cached fresh offhoursFetch agnoResults
    | none => rebuildClosed cfg lg scorer prev cached fresh offhoursFetch agnoResults

/-! ## General lemmas about the shared combinators -/

theorem jsMax_eq_max (a b : ℚ) : jsMax a b = max a b := by
  unfold jsMax
  rcases le_or_lt a b with h | h
  · rw [if_pos h, max_eq_right h]
  · rw [if_neg (not_le.mpr h), max_eq_left h.le]

theorem jsMin_eq_min (a b : ℚ) : jsMin a b = min a b := by
  unfold jsMin
  rcases le_or_lt a b with h | h
  · rw [if_pos h, min_eq_left h]
  · rw [if_neg (not_le.mpr h), min_eq_right h.le]

theorem jsAbs_eq_abs (q : ℚ) : jsAbs q = |q| := by
  unfold jsAbs
  rcases lt_or_le q 0 with h | h
  · rw [if_pos h, abs_of_neg h]
  · rw [if_neg (not_lt.mpr h), abs_of_nonneg h]

theorem clampQ_eq (v lo hi : ℚ) : clampQ v lo hi = min hi (max lo v) := by
  rw [clampQ, jsMin_eq_min, jsMax_eq_max]

theorem clampQ_bounds (v lo hi : ℚ) (h : lo ≤ hi) :
    lo ≤ clampQ v lo hi ∧ clampQ v lo hi ≤ hi := by
  rw [clampQ_eq]
  constructor
  · exact le_min h (le_trans (le_max_left lo v) (le_refl _))
  · exact min_le_left hi _

theorem clampUnit_bounds (n : Option ℚ) :
    -1 ≤ clampUnit n ∧ clampUnit n ≤ 1 := by
  rw [clampUnit, jsMin_eq_min, jsMax_eq_max]
  refine ⟨le_max_left _ _, ?_⟩
  exact max_le (by norm_num) (min_le_left _ _)

theorem clampUnit_of_abs_le (s : ℚ) (h : |s| ≤ 1) : clampUnit (some s) = s := by
  rcases abs_le.mp h with ⟨h1, h2⟩
  rw [clampUnit, jsMin_eq_min, jsMax_eq_max]
  simp [Option.getD]
  rw [min_eq_right h2, max_eq_right h1]

theorem take_ne_nil {α : Type} (n : ℕ) (l : List α) (hn : 1 ≤ n)
    (hl : l ≠ []) : l.take n ≠ [] := by
  cases l with
  | nil => exact absurd rfl hl
  | cons a t => cases n with
    | zero => omega
    | succ k => simp

theorem dedupeGo_subset {α : Type} (key : α → String) :
    ∀ (seen : List String) (l : List α) (a : α),
      a ∈ dedupeGo key seen l → a ∈ l := by
  intro seen l
  induction l generalizing seen with
  | nil => intro a h; simp [dedupeGo] at h
  | cons b t ih =>
    intro a h
    by_cases hb : key b = "" ∨ key b ∈ seen
    · simp [dedupeGo, hb] at h
      exact List.mem_cons_of_mem b (ih seen a h)
    · simp [dedupeGo, hb] at h
      rcases h with h | h
      · simp [h]
      · exact List.mem_cons_of_mem b (ih (key b :: seen) a h)

theorem dedupeGo_key_notin {α : Type} (key : α → String) :
    ∀ (seen : List String) (l : List α) (a : α),
      a ∈ dedupeGo key seen l → key a ∉ seen := by
  intro seen l
  induction l generalizing seen with
  | nil => intro a h; simp [dedupeGo] at h
  | cons b t ih =>
    intro a h
    by_cases hb : key b = "" ∨ key b ∈ seen
    · simp [dedupeGo, hb] at h
      exact ih seen a h
    · simp [dedupeGo, hb] at h
      rcases h with h | h
      · subst h
        push_neg at hb
        exact hb.2
      · have := ih (key b :: seen) a h
        intro hc
        exact this (List.mem_cons_of_mem _ hc)

theorem dedupeGo_pairwise {α : Type} (key : α → String) :
    ∀ (seen : List String) (l : List α),
      (dedupeGo key seen l).Pairwise (fun a b => key a ≠ key b) := by
  intro seen l
  induction l generalizing seen with
  | nil => simp [dedupeGo]
  | cons b t ih =>
    by_cases hb : key b = "" ∨ key b ∈ seen
    · simp [dedupeGo, hb]
      exact ih seen
    · simp [dedupeGo, hb]
      refine ⟨?_, ih (key b :: seen)⟩
      intro a ha hc
      have := dedupeGo_key_notin key (key b :: seen) t a ha
      exact this (by simp [hc])

theorem dedupeGo_cons_ne_nil {α : Type} (key : α → String) (a : α)
    (t : List α) (h : key a ≠ "") : dedupeGo key [] (a :: t) ≠ [] := by
  simp [dedupeGo, h]

/-! ## Claim C1 -/

/-- C1 (code bug witnessed): on the local in-process backend an entry
stored by `setCached` with `ttlMs` absent (or `0`) gets
`expiresAt = Date.now()`, which is truthy, so `getCached` misses at every
strictly later clock value — the entry expires immediately instead of
never.  For a positive ttl the round trip behaves as claimed: the value is
returned through `now = setTime + ttl` and missed after.  Concretely, after
`setCached("k", "v")` at clock `1000` the value is returned at `1000` but
`getCached("k")` at `1001` is already a miss, where the claim requires the
value at every later time. -/
theorem cacheLocal_ttl_zero_expires_immediately :
    (getCachedLocal (setCachedLocal ([] : List (String × MemEntry String))
        "k" "v" none 1000) "k" 1000).1 = some "v"
    ∧ (getCachedLocal (setCachedLocal ([] : List (String × MemEntry String))
        "k" "v" none 1000) "k" 1001).1 = none
    ∧ (getCachedLocal (setCachedLocal ([] : List (String × MemEntry String))
        "k" "v" (some 0) 1000) "k" 1001).1 = none
    ∧ (getCachedLocal (setCachedLocal ([] : List (String × MemEntry String))
        "k" "v" (some 5000) 1000) "k" 6000).1 = some "v"
    ∧ (getCachedLocal (setCachedLocal ([] : List (String × MemEntry String))
        "k" "v" (some 5000) 1000) "k" 6001).1 = none := by
  refine ⟨rfl, ?_, ?_, rfl, ?_⟩ <;> decide

/-! ## Claim C5 -/

/-- C5: `primaryFilter` accepts exactly the quotes with finite fields whose
`pct_change` lies in `[1, 3]`, `open` exceeds `50` and `volume` is at least
`100000`; the Scenario A quote passes and the Scenario B quote fails. -/
theorem primaryFilter_spec :
    (∀ (s : String) (o l v p : ℚ),
      primaryFilter ⟨s, some o, some l, some v, some p⟩ = true ↔
        (1 ≤ p ∧ p ≤ 3 ∧ 50 < o ∧ 100000 ≤ v))
    ∧ primaryFilter ⟨"TCS", some 120, some (1224/10), some 500000, some 2⟩ = true
    ∧ primaryFilter ⟨"XYZ", none, none, some 50000, some 5⟩ = false := by
  refine ⟨?_, by decide, by decide⟩
  intro s o l v p
  simp [primaryFilter]
  tauto

/-! ## Claim C10 -/

/-- C10: with the feature flag enabled, a symbols argument that normalizes
to the empty list (non-array, empty array, or only blank entries) makes
`getAgnoPicks` return the empty array at once, with the metrics object
untouched and no attempt outcome consumed. -/
theorem getAgnoPicks_empty_symbols_frame :
    (∀ (timeoutMs : ℤ) (retries : ℕ) (symbols : Option (List String))
        (outcomes : List AgnoOutcome) (m : AgnoMetrics),
      normalizeSymbols symbols = [] →
      getAgnoPicks true timeoutMs retries symbols outcomes m = (some [], m))
    ∧ normalizeSymbols none = []
    ∧ normalizeSymbols (some []) = []
    ∧ normalizeSymbols (some ["", "   "]) = [] := by
  refine ⟨?_, rfl, rfl, by decide⟩
  intro timeoutMs retries symbols outcomes m h
  simp [getAgnoPicks, h]

/-- Witness for C10 at the concrete blank-entry input. -/
theorem getAgnoPicks_empty_symbols_frame_witness :
    getAgnoPicks true 15000 2 (some ["", "   "]) [AgnoOutcome.timedOut 15000]
      initialAgnoMetrics = (some [], initialAgnoMetrics) :=
  getAgnoPicks_empty_symbols_frame.1 15000 2 (some ["", "   "])
    [AgnoOutcome.timedOut 15000] initialAgnoMetrics (by decide)

/-! ## Claim C6 -/

/-- C6: with the default thresholds, `shouldSendToLLM` holds exactly when
the absolute percent change reaches `3`, or volume reaches one million, or
the local compound sits inside the `0.20` neutral band, or the local label
conflicts with the price direction at the `1.0` conflict band; a compound
of `0.03` alone triggers escalation.  As a pure function of its arguments
it is trivially deterministic. -/
theorem shouldSendToLLM_spec :
    (∀ (sym : String) (op lt vo pc : Option ℚ) (vader : VaderResult)
        (count : ℕ),
      shouldSendToLLM defaultEngineCfg ⟨sym, op, lt, vo, pc⟩ vader count = true ↔
        (3 ≤ |pc.getD 0| ∨ 1000000 ≤ vo.getD 0 ∨ |vader.compound| < 1/5
          ∨ (vader.label = .positive ∧ pc.getD 0 ≤ -1)
          ∨ (vader.label = .negative ∧ 1 ≤ pc.getD 0)))
    ∧ shouldSendToLLM defaultEngineCfg
        ⟨"TCS", some 60, some 61, some 200000, some (1/2)⟩
        ⟨3/100, .neutral, 2⟩ 2 = true := by
  constructor
  · intro sym op lt vo pc vader count
    simp only [shouldSendToLLM, defaultEngineCfg, jsAbs_eq_abs]
    split_ifs with h0 h1 h2 h3 h4 <;> simp_all <;> tauto
  · norm_num [shouldSendToLLM, defaultEngineCfg, jsAbs]

/-! ## Claim C9 -/

/-- C9: under the default gains the quick predictor computes
`clamp(s·2 + volumeBoost + clamp(pct, -3, 3)·0.25, -3, 3)` with the
two-tier volume boost, thresholds the trend at `±0.15`, buckets risk at
confidence `0.75` and `0.5`, and always confines confidence to
`[0.2, 0.95]`. -/
theorem predictTodayChangePct_spec (sym : String) (op lt vo pc : Option ℚ)
    (s : ℚ) (hs : |s| ≤ 1) (r : PredictionCore)
    (hr : r = predictTodayChangePct defaultEngineCfg ⟨sym, op, lt, vo, pc⟩ s) :
    r.pred = clampQ (s * 2
        + (if (3000000 : ℚ) ≤ vo.getD 0 then 3/5
           else if (1000000 : ℚ) ≤ vo.getD 0 then 3/10 else 0)
        + clampQ (pc.getD 0) (-3) 3 * (1/4)) (-3) 3
    ∧ (r.trend = .bullish ↔ 3/20 < r.pred)
    ∧ (r.trend = .bearish ↔ r.pred < -(3/20))
    ∧ (r.trend = .sideways ↔ (¬ 3/20 < r.pred ∧ ¬ r.pred < -(3/20)))
    ∧ (r.risk_level = .low ↔ 3/4 ≤ r.confidence)
    ∧ (r.risk_level = .medium ↔ (r.confidence < 3/4 ∧ 1/2 ≤ r.confidence))
    ∧ (r.risk_level = .high ↔ (r.confidence < 1/2 ∧ r.confidence < 3/4))
    ∧ (1/5 ≤ r.confidence ∧ r.confidence ≤ 19/20) := by
  subst hr
  have hcu := clampUnit_of_abs_le s hs
  simp only [predictTodayChangePct, defaultEngineCfg, hcu]
  refine ⟨by norm_num, ?_, ?_, ?_, ?_, ?_, ?_, ?_⟩
  · split_ifs <;> simp_all
  · split_ifs <;> simp_all <;> linarith
  · split_ifs <;> simp_all <;> linarith
  · split_ifs <;> simp_all <;> linarith
  · split_ifs <;> simp_all <;> linarith
  · split_ifs <;> simp_all <;> linarith
  · exact clampQ_bounds _ _ _ (by norm_num)

/-- Witness for C9 at a concrete quote and sentiment score. -/
theorem predictTodayChangePct_spec_witness :
    (predictTodayChangePct defaultEngineCfg
      ⟨"TCS", none, none, some 2000000, some 1⟩ (1/2)).pred
      = clampQ ((1/2) * 2 + 3/10 + clampQ 1 (-3) 3 * (1/4)) (-3) 3 :=
  (predictTodayChangePct_spec "TCS" none none (some 2000000) (some 1) (1/2)
    (by rw [abs_of_pos (by norm_num : (0:ℚ) < 1/2)]; norm_num) _ rfl).1

/-! ## Claim C7 -/

theorem aggregateSentiment_cases (scorer : String → Option ℚ)
    (articles : List Article) :
    aggregateSentiment scorer articles = ⟨0, .neutral, 0⟩
    ∨ ∃ c : ℚ, aggregateSentiment scorer articles
        = ⟨clampUnit (some c),
           (if POS_THRESHOLD ≤ clampUnit (some c) then SentLabel.positive
            else if clampUnit (some c) ≤ NEG_THRESHOLD then SentLabel.negative
            else SentLabel.neutral),
           (sentDedupGo [] articles).length⟩ := by
  by_cases h1 : articles = []
  · left
    simp [aggregateSentiment, h1]
  · by_cases h2 : (sentDedupGo [] articles).map
        (fun a => clampUnit (some (scoreArticle scorer a.title a.summary))) = []
    · left
      simp [aggregateSentiment, h1, h2]
    · right
      refine ⟨(((sentDedupGo [] articles).map
          (fun a => clampUnit (some (scoreArticle scorer a.title a.summary)))).sum
          / ((sentDedupGo [] articles).map
          (fun a => clampUnit (some (scoreArticle scorer a.title a.summary)))).length), ?_⟩
      simp only [aggregateSentiment, h1, h2]
      simp [h1, h2]

theorem sentLabel_iff (x : ℚ) :
    ((if POS_THRESHOLD ≤ x then SentLabel.positive
      else if x ≤ NEG_THRESHOLD then SentLabel.negative
      else SentLabel.neutral) = SentLabel.positive ↔ 1/20 ≤ x)
    ∧ ((if POS_THRESHOLD ≤ x then SentLabel.positive
      else if x ≤ NEG_THRESHOLD then SentLabel.negative
      else SentLabel.neutral) = SentLabel.negative ↔ x ≤ -(1/20))
    ∧ ((if POS_THRESHOLD ≤ x then SentLabel.positive
      else if x ≤ NEG_THRESHOLD then SentLabel.negative
      else SentLabel.neutral) = SentLabel.neutral
        ↔ (-(1/20) < x ∧ x < 1/20)) := by
  simp only [POS_THRESHOLD, NEG_THRESHOLD]
  by_cases hp : (1:ℚ)/20 ≤ x
  · rw [if_pos hp]
    refine ⟨by simpa using hp, ?_, ?_⟩
    · simp
      linarith
    · simp
      intro
      linarith
  · rw [if_neg hp]
    push_neg at hp
    by_cases hn : x ≤ -(1/20)
    · rw [if_pos hn]
      refine ⟨?_, by simpa using hn, ?_⟩
      · simp
        linarith
      · simp
        intro
        linarith
    · rw [if_neg hn]
      push_neg at hn
      refine ⟨?_, ?_, ?_⟩
      · simp
        linarith
      · simp
        linarith
      · simp
        constructor <;> linarith

/-- C7: every aggregated sentiment has its compound hard-clamped into
`[-1, 1]` and carries exactly the label given by the `±0.05` thresholds;
the labels map to `BULLISH` / `SKIP` / `WATCH`; and the per-article text
weights the title by repeating it `round(0.7·3) = 2` times ahead of the
summary. -/
theorem aggregateSentiment_spec (scorer : String → Option ℚ)
    (articles : List Article) (r : VaderResult)
    (hr : r = aggregateSentiment scorer articles) :
    (-1 ≤ r.compound ∧ r.compound ≤ 1)
    ∧ (r.label = .positive ↔ 1/20 ≤ r.compound)
    ∧ (r.label = .negative ↔ r.compound ≤ -(1/20))
    ∧ (r.label = .neutral ↔ (-(1/20) < r.compound ∧ r.compound < 1/20))
    ∧ (vaderToRec .positive = .BULLISH ∧ vaderToRec .negative = .SKIP
        ∧ vaderToRec .neutral = .WATCH)
    ∧ titleRepeats = 2
    ∧ (∀ t s : String, sentClean t ≠ "" → sentClean s ≠ "" →
        (buildArticleText t s).data
          = (sentClean t).data ++ ". ".data ++ (sentClean t).data
            ++ ". ".data ++ (sentClean s).data) := by
  have hrep : titleRepeats = 2 := by
    have h2 : jsRound (TITLE_WEIGHT * 3) = 2 := by norm_num [jsRound, TITLE_WEIGHT]
    simp [titleRepeats, h2]
  have hmain : (-1 ≤ r.compound ∧ r.compound ≤ 1)
      ∧ (r.label = .positive ↔ 1/20 ≤ r.compound)
      ∧ (r.label = .negative ↔ r.compound ≤ -(1/20))
      ∧ (r.label = .neutral ↔ (-(1/20) < r.compound ∧ r.compound < 1/20)) := by
    rcases aggregateSentiment_cases scorer articles with h | ⟨c, h⟩
    · rw [hr, h]
      refine ⟨by norm_num, ?_, ?_, ?_⟩ <;> simp <;> norm_num
    · rw [hr, h]
      rcases clampUnit_bounds (some c) with ⟨hb1, hb2⟩
      exact ⟨⟨hb1, hb2⟩, (sentLabel_iff (clampUnit (some c))).1,
        (sentLabel_iff (clampUnit (some c))).2.1,
        (sentLabel_iff (clampUnit (some c))).2.2⟩
  refine ⟨hmain.1, hmain.2.1, hmain.2.2.1, hmain.2.2.2, ⟨rfl, rfl, rfl⟩, hrep, ?_⟩
  intro t s ht hs
  have h1 : ¬(sentClean t = "" ∧ sentClean s = "") := by tauto
  simp only [buildArticleText, if_neg h1, if_neg hs, if_neg ht, hrep]
  simp [repeatTitle, String.data_append, List.append_assoc]

/-- Witness for C7 at a concrete scorer, article list and article text. -/
theorem aggregateSentiment_spec_witness :
    (-1 ≤ (aggregateSentiment (fun _ => some 0)
        [⟨"Good results", "Strong growth", "u", none⟩]).compound
      ∧ (aggregateSentiment (fun _ => some 0)
        [⟨"Good results", "Strong growth", "u", none⟩]).compound ≤ 1)
    ∧ (buildArticleText "Good results" "Strong growth").data
        = (sentClean "Good results").data ++ ". ".data
          ++ (sentClean "Good results").data ++ ". ".data
          ++ (sentClean "Strong growth").data := by
  have h := aggregateSentiment_spec (fun _ => some 0)
    [⟨"Good results", "Strong growth", "u", none⟩] _ rfl
  exact ⟨h.1, h.2.2.2.2.2.2 "Good results" "Strong growth" (by decide) (by decide)⟩

/-! ## Claim C2 -/

/-- Counterexample to C2 as stated: three simulated timeouts (the initial
try plus the default 2 retries) leave `totalFailures` at `3`, because the
counter is incremented inside the catch branch of every attempt — not once
for the whole batch. -/
theorem getAgnoPicks_totalFailures_counterexample :
    (getAgnoPicks true 15000 2 (some ["TCS"])
      [AgnoOutcome.timedOut 15000, AgnoOutcome.timedOut 15000,
        AgnoOutcome.timedOut 15000] initialAgnoMetrics).2.totalFailures = 3
    ∧ (3 : ℕ) ≠ 1 := by
  constructor
  · decide
  · decide

/-- C2 (amended): when all `retries + 1 = 3` attempts of one batched call
fail, the call returns no result (`null`), `totalCalls` and `totalFailures`
each grow by exactly 3 — once per failed attempt, independent of the number
of symbols — and merging with the absent classifier result keeps the
Tier-1 VADER score and label for every candidate. -/
theorem getAgnoPicks_batch_failure_spec (timeoutMs : ℤ)
    (symbols : Option (List String)) (o1 o2 o3 : AgnoOutcome)
    (rest : List AgnoOutcome) (m : AgnoMetrics)
    (hsym : normalizeSymbols symbols ≠ [])
    (h1 : o1.isFailure = true) (h2 : o2.isFailure = true)
    (h3 : o3.isFailure = true) :
    (getAgnoPicks true timeoutMs 2 symbols (o1 :: o2 :: o3 :: rest) m).1 = none
    ∧ (getAgnoPicks true timeoutMs 2 symbols (o1 :: o2 :: o3 :: rest) m).2.totalFailures
        = m.totalFailures + 3
    ∧ (getAgnoPicks true timeoutMs 2 symbols (o1 :: o2 :: o3 :: rest) m).2.totalCalls
        = m.totalCalls + 3
    ∧ (∀ (cfg : EngineCfg) (lg : ℚ → ℚ) (scorer : String → Option ℚ)
        (cands : List Quote) (news : String → List Article),
        (buildEnhancedRecommendations cfg lg scorer cands news none).map
          (fun e => (e.symbol, e.sentiment.source, e.sentiment_score,
            e.sentiment_label))
        = cands.map (fun c => (c.symbol, SentSource.vader,
            clampUnit (some (aggregateSentiment scorer (news c.symbol)).compound),
            vaderToRec (aggregateSentiment scorer (news c.symbol)).label))) := by
  have hrun : ∀ (p : Option (List AgnoRow) × AgnoMetrics),
      p = getAgnoPicks true timeoutMs 2 symbols (o1 :: o2 :: o3 :: rest) m →
      p.1 = none ∧ p.2.totalFailures = m.totalFailures + 3
        ∧ p.2.totalCalls = m.totalCalls + 3 := by
    intro p hp
    rw [hp]
    simp only [getAgnoPicks, if_neg (by simp : ¬(true = false)), if_neg hsym]
    cases o1 <;> cases o2 <;> cases o3 <;>
      simp [AgnoOutcome.isFailure] at h1 h2 h3 <;>
      simp [runAgnoAttempts] <;> omega
  refine ⟨(hrun _ rfl).1, (hrun _ rfl).2.1, (hrun _ rfl).2.2, ?_⟩
  intro cfg lg scorer cands news
  by_cases hc : cands = []
  · simp [buildEnhancedRecommendations, hc]
  · simp only [buildEnhancedRecommendations, if_neg hc, List.map_map]
    apply List.map_congr_left
    intro c _
    simp [mergeRow, mkBaseRow, agnoLookup]

/-- Witness for C2 at a concrete batch and three concrete failure
outcomes. -/
theorem getAgnoPicks_batch_failure_spec_witness :
    (getAgnoPicks true 15000 2 (some ["TCS"])
      [AgnoOutcome.httpError 500 10, AgnoOutcome.netError "boom" 5,
        AgnoOutcome.timedOut 15000] initialAgnoMetrics).1 = none
    ∧ (getAgnoPicks true 15000 2 (some ["TCS"])
      [AgnoOutcome.httpError 500 10, AgnoOutcome.netError "boom" 5,
        AgnoOutcome.timedOut 15000] initialAgnoMetrics).2.totalFailures
        = initialAgnoMetrics.totalFailures + 3 :=
  have h := getAgnoPicks_batch_failure_spec 15000 (some ["TCS"])
    (AgnoOutcome.httpError 500 10) (AgnoOutcome.netError "boom" 5)
    (AgnoOutcome.timedOut 15000) [] initialAgnoMetrics (by decide) rfl rfl rfl
  ⟨h.1, h.2.1⟩

/-! ## Claim C4 -/

theorem buildEnhancedRecommendations_length (cfg : EngineCfg) (lg : ℚ → ℚ)
    (scorer : String → Option ℚ) (candidates : List Quote)
    (news : String → List Article) (agnoResults : Option (List AgnoRow)) :
    (buildEnhancedRecommendations cfg lg scorer candidates news
      agnoResults).length = candidates.length := by
  by_cases hc : candidates = []
  · simp [buildEnhancedRecommendations, hc]
  · simp [buildEnhancedRecommendations, hc]

theorem withHeadlines_length (news : String → List Article)
    (rows : List EnrichedRow) :
    (withHeadlines news rows).length = rows.length := by
  simp [withHeadlines]

/-- Counterexample to C4 as stated: a non-empty previous-session snapshot
whose only quote fails the numeric filter (`pct_change = 5 ∉ [1, 3]`)
rebuilds to an empty `results` array. -/
theorem picksTodayClosed_empty_counterexample :
    ([(⟨"XYZ", some 60, some 63, some 200000, some 5⟩ : Quote)] ≠ [])
    ∧ picksTodayClosed defaultEngineCfg (fun _ => 0) (fun _ => some 0)
        ⟨"", [], ""⟩ none [⟨"XYZ", some 60, some 63, some 200000, some 5⟩]
        (fun _ => some []) (fun _ => []) false none = [] := by
  constructor
  · decide
  · rfl

/-- C4 (amended): while the market is closed, with no in-memory pick-set
and no persisted pick-set, the rebuild from the previous session serves a
non-empty `results` array whenever at least one quote of the previous
snapshot passes the numeric filter. -/
theorem picksTodayClosed_rebuild_nonempty (cfg : EngineCfg) (lg : ℚ → ℚ)
    (scorer : String → Option ℚ) (mem : SessionPicks)
    (persisted : Option SessionPicks) (prev : List Quote)
    (cached : String → Option (List Article)) (fresh : String → List Article)
    (offhoursFetch : Bool) (agnoResults : Option (List AgnoRow))
    (hmem : mem.results = []) (hpers : persisted = none)
    (hq : ∃ q ∈ prev, primaryFilter q = true) :
    picksTodayClosed cfg lg scorer mem persisted prev cached fresh
      offhoursFetch agnoResults ≠ [] := by
  subst hpers
  simp only [picksTodayClosed, hmem]
  simp only [ne_eq, not_true_eq_false, if_false, reduceIte]
  intro hcontra
  have hlen : (rebuildClosed cfg lg scorer prev cached fresh offhoursFetch
      agnoResults).length = 0 := by
    simp [hcontra]
  rw [rebuildClosed] at hlen
  simp only [withHeadlines_length, buildEnhancedRecommendations_length,
    List.length_take] at hlen
  rcases hq with ⟨q, hqmem, hqf⟩
  have hfilter : q ∈ prev.filter primaryFilter := List.mem_filter.mpr ⟨hqmem, hqf⟩
  have hperm := List.perm_insertionSort
    (fun a b => b.pct_change.getD 0 ≤ a.pct_change.getD 0)
    (prev.filter primaryFilter)
  have hmemsort := (hperm.mem_iff).mpr hfilter
  have hpos : 0 < (List.insertionSort
      (fun a b => b.pct_change.getD 0 ≤ a.pct_change.getD 0)
      (prev.filter primaryFilter)).length :=
    List.length_pos_of_mem hmemsort
  omega

/-- Witness for C4 with a previous snapshot containing one passing quote. -/
theorem picksTodayClosed_rebuild_nonempty_witness :
    picksTodayClosed defaultEngineCfg (fun _ => 0) (fun _ => some 0)
      ⟨"", [], ""⟩ none [⟨"TCS", some 120, some 122, some 500000, some 2⟩]
      (fun _ => some []) (fun _ => []) false none ≠ [] :=
  picksTodayClosed_rebuild_nonempty defaultEngineCfg (fun _ => 0)
    (fun _ => some 0) ⟨"", [], ""⟩ none
    [⟨"TCS", some 120, some 122, some 500000, some 2⟩]
    (fun _ => some []) (fun _ => []) false none rfl rfl
    ⟨⟨"TCS", some 120, some 122, some 500000, some 2⟩, by decide, by decide⟩

/-! ## Claim C3 -/

theorem fetchFromYahoo_spec (symbols : List String)
    (resp : String → Option YahooParsed) :
    ∀ q ∈ fetchFromYahoo symbols resp, q.symbol ∈ symbols ∧ quoteFinite q := by
  intro q hq
  rw [fetchFromYahoo] at hq
  rcases List.mem_filterMap.mp hq with ⟨s, hs, hmap⟩
  cases hresp : resp s with
  | none => rw [hresp] at hmap; simp at hmap
  | some p =>
    rw [hresp] at hmap
    dsimp only at hmap
    split_ifs at hmap with hg
    · rcases Option.some_inj.mp hmap with rfl
      simp only [Bool.and_eq_true] at hg
      exact ⟨hs, hg.1.1, hg.1.2, rfl, hg.2⟩

theorem fetchFromNSE_spec (symbols : List String)
    (resp : String → Option NseParsed) :
    ∀ q ∈ fetchFromNSE symbols resp, q.symbol ∈ symbols ∧ quoteFinite q := by
  intro q hq
  rw [fetchFromNSE] at hq
  rcases List.mem_filterMap.mp hq with ⟨s, hs, hmap⟩
  cases hresp : resp s with
  | none => rw [hresp] at hmap; simp at hmap
  | some p =>
    rw [hresp] at hmap
    dsimp only at hmap
    split_ifs at hmap with hg
    · rcases Option.some_inj.mp hmap with rfl
      simp only [Bool.and_eq_true] at hg
      exact ⟨hs, hg.1.1, hg.1.2, rfl, hg.2⟩

theorem fetchFromTwelveData_spec (entries : List TdEntry) :
    ∀ l, fetchFromTwelveData (some entries) = some l →
      ∀ q ∈ l, quoteFinite q := by
  intro l hl q hq
  rw [fetchFromTwelveData] at hl
  rcases Option.some_inj.mp hl with rfl
  rcases List.mem_filterMap.mp hq with ⟨e, _, hmap⟩
  by_cases hc : e.hasCode
  · simp [hc] at hmap
  · simp only [hc, if_false, Bool.false_eq_true, reduceIte] at hmap
    cases hsr : e.symbolRaw with
    | none => rw [hsr] at hmap; simp at hmap
    | some sraw =>
      rw [hsr] at hmap
      dsimp only at hmap
      split_ifs at hmap with hg
      · rcases Option.some_inj.mp hmap with rfl
        simp only [Bool.and_eq_true] at hg
        exact ⟨hg.1.1.1, hg.1.1.2, hg.1.2, hg.2⟩

theorem genRow_finite (draws : String → ℚ × ℚ × ℚ) (s : String) :
    quoteFinite (genRow draws s) := by
  rcases hd : draws s with ⟨o, pv⟩
  rcases pv with ⟨p, v⟩
  simp [genRow, hd, quoteFinite]

theorem universeFileOrDefault_ne_nil (cap : ℕ) (file : Option (List String))
    (hcap : 1 ≤ cap) : universeFileOrDefault cap file ≠ [] := by
  unfold universeFileOrDefault
  cases file with
  | none => exact take_ne_nil _ _ hcap (by decide)
  | some arr =>
    dsimp only
    by_cases ha : arr = []
    · rw [if_neg (not_not_intro ha)]
      exact take_ne_nil _ _ hcap (by decide)
    · rw [if_pos ha]
      exact take_ne_nil _ _ hcap (by simp [ha])

theorem getUniverseSymbols_ne_nil (cap : ℕ) (live file : Option (List String))
    (hcap : 1 ≤ cap) : getUniverseSymbols cap live file ≠ [] := by
  unfold getUniverseSymbols
  cases live with
  | none => exact universeFileOrDefault_ne_nil cap file hcap
  | some rows =>
    dsimp only
    by_cases hs : fetchNifty500Symbols cap rows = []
    · rw [if_neg (not_not_intro hs)]
      exact universeFileOrDefault_ne_nil cap file hcap
    · rw [if_pos hs]
      exact hs

/-- C3 (amended): the universe is never empty, and `getSnapshot` over a
non-empty universe of non-blank symbols always returns a non-empty list
whose quotes all carry finite `open`, `lastPrice`, `volume` and
`percentChange`; symbols are guaranteed pairwise distinct when the intraday
(Yahoo) source wins — the other sources' outputs are returned without
deduplication. -/
theorem getSnapshot_spec :
    (∀ (cap : ℕ) (live file : Option (List String)),
      1 ≤ cap → getUniverseSymbols cap live file ≠ [])
    ∧ (∀ (univ : List String) (yresp : String → Option YahooParsed)
        (nresp : String → Option NseParsed)
        (tdEntries : Option (List TdEntry)) (draws : String → ℚ × ℚ × ℚ),
        univ ≠ [] → (∀ s ∈ univ, s ≠ "") →
        getSnapshot univ yresp nresp tdEntries draws ≠ []
        ∧ (∀ q ∈ getSnapshot univ yresp nresp tdEntries draws, quoteFinite q)
        ∧ (fetchFromYahoo univ yresp ≠ [] →
            (getSnapshot univ yresp nresp tdEntries draws).Pairwise
              (fun a b => a.symbol ≠ b.symbol))) := by
  refine ⟨getUniverseSymbols_ne_nil, ?_⟩
  intro univ yresp nresp tdEntries draws hu hne
  by_cases hy : fetchFromYahoo univ yresp = []
  · have hsnap1 : getSnapshot univ yresp nresp tdEntries draws =
        (let nse := fetchFromNSE univ nresp
         if nse ≠ [] then nse
         else
          match fetchFromTwelveData tdEntries with
          | some td => if td ≠ [] then td else univ.map (genRow draws)
          | none => univ.map (genRow draws)) := by
      simp only [getSnapshot, hy, ne_eq, not_true_eq_false, if_false, reduceIte]
    refine ⟨?_, ?_, fun hyc => absurd hy hyc⟩
    · rw [hsnap1]
      by_cases hn : fetchFromNSE univ nresp = []
      · simp only [hn, ne_eq, not_true_eq_false, if_false, reduceIte]
        cases htd : fetchFromTwelveData tdEntries with
        | none => simp [htd, hu]
        | some td =>
          by_cases htde : td = []
          · simp [htd, htde, hu]
          · simp [htd, htde]
      · simp only [ne_eq, hn, not_false_eq_true, if_true, reduceIte]
    · rw [hsnap1]
      intro q hq
      by_cases hn : fetchFromNSE univ nresp = []
      · simp only [hn, ne_eq, not_true_eq_false, if_false, reduceIte] at hq
        cases htd : fetchFromTwelveData tdEntries with
        | none =>
          rw [htd] at hq
          rcases List.mem_map.mp hq with ⟨s, _, rfl⟩
          exact genRow_finite draws s
        | some td =>
          rw [htd] at hq
          by_cases htde : td = []
          · simp only [htde, ne_eq, not_true_eq_false, if_false, reduceIte] at hq
            rcases List.mem_map.mp hq with ⟨s, _, rfl⟩
            exact genRow_finite draws s
          · simp only [ne_eq, htde, not_false_eq_true, if_true, reduceIte] at hq
            cases tdEntries with
            | none => simp [fetchFromTwelveData] at htd
            | some entries => exact fetchFromTwelveData_spec entries td htd q hq
      · simp only [ne_eq, hn, not_false_eq_true, if_true, reduceIte] at hq
        exact (fetchFromNSE_spec univ nresp q hq).2
  · have hsnap2 : getSnapshot univ yresp nresp tdEntries draws =
        dedupBySymbol (fetchFromYahoo univ yresp) := by
      simp only [getSnapshot, ne_eq, hy, not_false_eq_true, if_true, reduceIte]
    refine ⟨?_, ?_, ?_⟩
    · rw [hsnap2]
      rcases hl : fetchFromYahoo univ yresp with _ | ⟨a, t⟩
      · exact absurd hl hy
      · have ha : a ∈ fetchFromYahoo univ yresp := by rw [hl]; simp
        have hsym := (fetchFromYahoo_spec univ yresp a ha).1
        exact dedupeGo_cons_ne_nil Quote.symbol a t (hne a.symbol hsym)
    · rw [hsnap2]
      intro q hq
      have hmem := dedupeGo_subset Quote.symbol [] _ q hq
      exact (fetchFromYahoo_spec univ yresp q hmem).2
    · intro _
      rw [hsnap2]
      exact dedupeGo_pairwise Quote.symbol [] _

/-- Counterexample to C3 as stated: with the universe resolved from a local
file containing a repeated symbol (the file fallback neither deduplicates
nor filters), the NSE quote source returns one quote per universe entry
with no deduplication, so one snapshot carries two quotes for `TCS`. -/
theorem getSnapshot_duplicate_symbols_counterexample :
    getUniverseSymbols 500 none (some ["TCS", "TCS"]) = ["TCS", "TCS"]
    ∧ ¬ (getSnapshot (getUniverseSymbols 500 none (some ["TCS", "TCS"]))
          (fun _ => none)
          (fun _ => some ⟨some 100, some 102, some 500000, some 2⟩) none
          (fun _ => (0, 0, 0))).Pairwise
        (fun a b => a.symbol ≠ b.symbol) := by
  constructor
  · decide
  · decide

/-- Witness for C3 on a singleton universe with every live source down
(mock fallback) and on the default universe resolution. -/
theorem getSnapshot_spec_witness :
    getUniverseSymbols 500 none none ≠ []
    ∧ getSnapshot ["TCS"] (fun _ => none) (fun _ => none) none
        (fun _ => (100, 2, 300000)) ≠ [] :=
  ⟨getSnapshot_spec.1 500 none none (by norm_num),
   (getSnapshot_spec.2 ["TCS"] (fun _ => none) (fun _ => none) none
      (fun _ => (100, 2, 300000)) (by decide) (by decide)).1⟩

/-! ## Claim C8 -/

theorem mem_sortByNewest (l : List Article) (a : Article) :
    a ∈ sortByNewest l ↔ a ∈ l :=
  (List.perm_insertionSort _ l).mem_iff

theorem firstNonempty_cases :
    ∀ ls : List (List Article), firstNonempty ls = [] ∨ firstNonempty ls ∈ ls := by
  intro ls
  induction ls with
  | nil => left; rfl
  | cons l rest ih =>
    by_cases h : l = []
    · rcases ih with h2 | h2
      · left
        simpa [firstNonempty, h] using h2
      · right
        rw [firstNonempty, if_pos h]
        exact List.mem_cons_of_mem l h2
    · right
      simp [firstNonempty, h]

theorem isFresh_spec (now : ℤ) (pa : Option ℤ) (h : isFresh now pa = true) :
    ∃ t, pa = some t ∧ t ≤ now ∧ now - t ≤ HORIZON_MS := by
  cases pa with
  | none => simp [isFresh] at h
  | some t =>
    simp [isFresh] at h
    exact ⟨t, rfl, h.2, by omega⟩

theorem jsTake_length_le (s : String) (n : ℕ) : (jsTake s n).length ≤ n := by
  show (s.data.take n).length ≤ n
  rw [List.length_take]
  exact min_le_left _ _

theorem processSource_props (now : ℤ) (src : NewsSource) :
    ∀ a ∈ processSource now src,
      a.title ≠ "" ∧ a.url ≠ "" ∧ isFresh now a.publishedAt = true
        ∧ ∃ r, a = normalizeItem r := by
  intro a ha
  rw [processSource] at ha
  have h1 := (mem_sortByNewest _ a).mp ha
  have h2 := dedupeGo_subset normTitleKey [] _ a h1
  rcases List.mem_filter.mp h2 with ⟨h3, h4⟩
  simp only [Bool.and_eq_true, decide_eq_true_eq] at h4
  rcases List.mem_map.mp h3 with ⟨r, _, rfl⟩
  exact ⟨h4.1.1.1, h4.1.1.2, h4.1.2, r, rfl⟩

/-- C8: every article returned by `getNewsForSymbol` has a non-empty title
and url, a parsable timestamp at most `now` and at most 48 hours old, a
summary that is the tag-stripped, whitespace-normalized, 400-character
truncation of some raw summary, and normalized titles are pairwise
distinct in each returned list. -/
theorem getNewsForSymbol_spec (now : ℤ) (sources : List NewsSource) :
    (∀ a ∈ getNewsForSymbol now sources,
      a.title ≠ "" ∧ a.url ≠ ""
        ∧ (∃ t, a.publishedAt = some t ∧ t ≤ now ∧ now - t ≤ HORIZON_MS)
        ∧ a.summary.length ≤ 400
        ∧ (∃ raw : String, a.summary = jsTake (newsStripTags raw) 400))
    ∧ (getNewsForSymbol now sources).Pairwise
        (fun x y => normTitleKey x ≠ normTitleKey y) := by
  have hcases := firstNonempty_cases (sources.map (processSource now))
  constructor
  · intro a ha
    rw [getNewsForSymbol] at ha
    rcases hcases with h | h
    · rw [h] at ha
      simp at ha
    · rcases List.mem_map.mp h with ⟨src, _, heq⟩
      rw [← heq] at ha
      rcases processSource_props now src a ha with ⟨ht, hu, hf, r, rfl⟩
      rcases isFresh_spec now _ hf with ⟨t, hpa, hle, hhor⟩
      exact ⟨ht, hu, ⟨t, hpa, hle, hhor⟩, jsTake_length_le _ 400,
        ⟨r.summary, rfl⟩⟩
  · rw [getNewsForSymbol]
    rcases hcases with h | h
    · rw [h]
      exact List.Pairwise.nil
    · rcases List.mem_map.mp h with ⟨src, _, heq⟩
      rw [← heq, processSource, sortByNewest]
      have hperm := List.perm_insertionSort
        (fun a b => (b.publishedAt.getD 0) ≤ (a.publishedAt.getD 0))
        (dedupeArticles
          ((src.raws.map normalizeItem).filter
            (fun a => a.title ≠ "" && a.url ≠ "" && isFresh now a.publishedAt
              && src.extraOk a)))
      exact (List.Perm.pairwise_iff (fun {_ _} h => Ne.symm h) hperm).mpr
        (dedupeGo_pairwise normTitleKey [] _)

/-- Witness for C8 on one concrete source holding a fresh article plus a
case-variant duplicate of its title. -/
theorem getNewsForSymbol_spec_witness :
    (normalizeItem ⟨" Strong results ", "<b>Profit</b>  up", "http://n/x",
        some 900000000⟩).title ≠ ""
    ∧ (normalizeItem ⟨" Strong results ", "<b>Profit</b>  up", "http://n/x",
        some 900000000⟩).url ≠ ""
    ∧ (∃ t, (normalizeItem ⟨" Strong results ", "<b>Profit</b>  up",
        "http://n/x", some 900000000⟩).publishedAt = some t
        ∧ t ≤ 900300000 ∧ 900300000 - t ≤ HORIZON_MS)
    ∧ (normalizeItem ⟨" Strong results ", "<b>Profit</b>  up", "http://n/x",
        some 900000000⟩).summary.length ≤ 400
    ∧ (∃ raw : String, (normalizeItem ⟨" Strong results ", "<b>Profit</b>  up",
        "http://n/x", some 900000000⟩).summary
          = jsTake (newsStripTags raw) 400) :=
  (getNewsForSymbol_spec 900300000
    [⟨[⟨" Strong results ", "<b>Profit</b>  up", "http://n/x", some 900000000⟩,
       ⟨"strong results", "syndicated copy", "http://n/y", some 900000001⟩],
      fun _ => true⟩]).1
    (normalizeItem ⟨" Strong results ", "<b>Profit</b>  up", "http://n/x",
      some 900000000⟩) (by decide)
